import Mathlib

/-!
Shallow embedding of the persona-derivation pipeline of
`reddit_persona_analyzer.py` (class `RedditUserAnalyzer`) together with the
mock profile of `samples/test_analyzer.py`.

External collaborators (the sentiment primitive, the tokenizer and the
stop-word set) are taken as parameters, exactly as the specification treats
them: `score : String → Sentiment`, `tokenize : String → List String`,
`stop : List String`.  Machine floats are modelled over `ℚ`.
-/

namespace RedditPersona

/-- Four-field sentiment record returned by the external sentiment primitive
(`polarity_scores`): compound, pos, neg, neu. -/
structure Sentiment where
  compound : ℚ
  pos : ℚ
  neg : ℚ
  neu : ℚ
deriving DecidableEq

/-- A fetched Reddit post record (`get_user_data`, lines 74-83). -/
structure Post where
  title : String
  text : String
  subreddit : String
  score : Int
  url : String
deriving DecidableEq

/-- A fetched Reddit comment record (`get_user_data`, lines 85-93). -/
structure Comment where
  text : String
  subreddit : String
  score : Int
  url : String
deriving DecidableEq

/-- The user-data dictionary built by `get_user_data`. -/
structure UserData where
  username : String
  accountCreated : String
  karmaPost : Int
  karmaComment : Int
  posts : List Post
  comments : List Comment
deriving DecidableEq

/-! ### Username extraction (`extract_username_from_url`, lines 47-58)

The four patterns are `reddit\.com/user/([^/]+)`, `reddit\.com/u/([^/]+)`
and the same two with a trailing `/`, tried in order with `re.search`
(leftmost unanchored match, greedy capture). -/

/-- Greedy `[^/]+`-style capture: the longest leading run of non-slash
characters. -/
def takeNonSlash : List Char → List Char
  | [] => []
  | c :: cs => if c = '/' then [] else c :: takeNonSlash cs

/-- Whether a character list starts with a slash (used for the trailing-slash
variants of the patterns). -/
def startsWithSlash : List Char → Bool
  | [] => false
  | c :: _ => decide (c = '/')

/-- Leftmost-match scan of `re.search` for a pattern `lit([^/]+)` or
`lit([^/]+)/`: at each position, the literal must match and be followed by a
nonempty run of non-slash characters (and, when `slashAfter` is set, by a
slash right after that run); otherwise the scan moves one character right. -/
def scanCapture (lit : List Char) (slashAfter : Bool) : List Char → Option (List Char)
  | [] => none
  | c :: cs =>
    if lit.isPrefixOf (c :: cs)
        && !(takeNonSlash (List.drop lit.length (c :: cs))).isEmpty
        && (!slashAfter
            || startsWithSlash
                (List.drop (takeNonSlash (List.drop lit.length (c :: cs))).length
                  (List.drop lit.length (c :: cs)))) then
      some (takeNonSlash (List.drop lit.length (c :: cs)))
    else scanCapture lit slashAfter cs

/-- The literal part of the `reddit\.com/user/` patterns. -/
def lit_user : List Char :=
  ['r', 'e', 'd', 'd', 'i', 't', '.', 'c', 'o', 'm', '/', 'u', 's', 'e', 'r', '/']

/-- The literal part of the `reddit\.com/u/` patterns. -/
def lit_u : List Char :=
  ['r', 'e', 'd', 'd', 'i', 't', '.', 'c', 'o', 'm', '/', 'u', '/']

/-- `extract_username_from_url` (lines 47-58): the four patterns are tried in
order, the first match wins; `none` models the `ValueError` (`InvalidURL`)
raised when no pattern matches. -/
def extract_username_from_url (url : String) : Option String :=
  match scanCapture lit_user false url.toList with
  | some cap => some (String.mk cap)
  | none =>
  match scanCapture lit_u false url.toList with
  | some cap => some (String.mk cap)
  | none =>
  match scanCapture lit_user true url.toList with
  | some cap => some (String.mk cap)
  | none =>
  match scanCapture lit_u true url.toList with
  | some cap => some (String.mk cap)
  | none => none

/-- Declarative occurrence predicate: somewhere in `s` the literal `lit`
occurs followed by at least one non-slash character. -/
def OccursCap (lit s : List Char) : Prop :=
  ∃ i ∈ List.range s.length,
    lit.isPrefixOf (s.drop i) = true ∧
      takeNonSlash (List.drop lit.length (s.drop i)) ≠ []

instance (lit s : List Char) : Decidable (OccursCap lit s) := by
  unfold OccursCap; infer_instance

/-! ### Stable descending sort

Python's `sorted(l, key=..., reverse=True)` is a stable sort: elements are
ordered by descending key and elements with equal keys keep their original
relative order.  It is embedded as a stable insertion sort. -/

/-- Stable insertion into a list sorted by descending key: `x` goes in front
of the first element whose key is `≤ key x`, so earlier input elements stay
in front of later ones with the same key. -/
def insertDescBy {α : Type} (key : α → Int) (x : α) : List α → List α
  | [] => [x]
  | y :: ys => if key y ≤ key x then x :: y :: ys else y :: insertDescBy key x ys

/-- Stable sort by descending key: models `sorted(l, key=..., reverse=True)`. -/
def sortDescBy {α : Type} (key : α → Int) : List α → List α
  | [] => []
  | x :: xs => insertDescBy key x (sortDescBy key xs)

/-! ### Citation selection (`generate_citations`, lines 160-181) -/

/-- One entry of the `content` list built by `generate_citations`. -/
structure Citation where
  ctype : String
  text : String
  score : Int
  url : String
  subreddit : String
deriving DecidableEq

/-- The `content` list of `generate_citations`: tagged posts (text
`title + " " + text`) in fetch order, then tagged comments in fetch order. -/
def toContent (u : UserData) : List Citation :=
  u.posts.map (fun p => ⟨"post", p.title ++ " " ++ p.text, p.score, p.url, p.subreddit⟩)
    ++ u.comments.map (fun c => ⟨"comment", c.text, c.score, c.url, c.subreddit⟩)

/-- Python's `t[:200]`: plain truncation to the first 200 characters. -/
def truncate200 (t : String) : String := String.mk (t.toList.take 200)

/-- `generate_citations`: stable-sort the content by descending score, keep
the top 5, truncate each kept text to 200 characters. -/
def generate_citations (u : UserData) : List Citation :=
  ((sortDescBy (fun x => x.score) (toContent u)).take 5).map
    (fun t => { t with text := truncate200 t.text })

/-! ### Interest classification (`extract_topics_and_interests`, lines 100-124)

`word_tokenize` is the external tokenizer; the function below receives its
raw output together with the external stop-word set. -/

/-- Python's `t.isalnum()` (restricted to ASCII letters and digits). -/
def isalnumStr (t : String) : Bool :=
  !t.toList.isEmpty && t.toList.all (fun c => c.isAlpha || c.isDigit)

/-- The token filter of line 103: alphanumeric, not a stop word, length
greater than 2. -/
def keepToken (stop : List String) (t : String) : Bool :=
  isalnumStr t && !(stop.contains t) && decide (2 < t.length)

/-- Keyword list of the `technology` category (line 106). -/
def technologyKeywords : List String :=
  ["python", "programming", "software", "tech", "computer", "code",
   "development", "ai", "machine", "learning"]

/-- Keyword list of the `gaming` category (line 107). -/
def gamingKeywords : List String :=
  ["game", "gaming", "play", "player", "steam", "console", "xbox",
   "playstation", "nintendo", "fps", "rpg"]

/-- Keyword list of the `finance` category (line 108). -/
def financeKeywords : List String :=
  ["money", "investment", "stock", "crypto", "bitcoin", "trading",
   "portfolio", "financial", "market"]

/-- Keyword list of the `fitness` category (line 109). -/
def fitnessKeywords : List String :=
  ["gym", "workout", "exercise", "fitness", "muscle", "weight", "training",
   "health", "diet"]

/-- Keyword list of the `entertainment` category (line 110). -/
def entertainmentKeywords : List String :=
  ["movie", "film", "tv", "show", "series", "music", "band", "song",
   "album", "netflix"]

/-- Keyword list of the `sports` category (line 111). -/
def sportsKeywords : List String :=
  ["football", "basketball", "soccer", "baseball", "sport", "team", "game",
   "match", "player", "season"]

/-- Keyword list of the `politics` category (line 112). -/
def politicsKeywords : List String :=
  ["government", "political", "politics", "election", "vote", "politician",
   "policy", "law", "congress"]

/-- Keyword list of the `education` category (line 113). -/
def educationKeywords : List String :=
  ["school", "university", "college", "student", "study", "education",
   "learn", "teacher", "class", "degree"]

/-- The `interest_categories` dict in its definition (= iteration) order. -/
def interest_categories : List (String × List String) :=
  [("technology", technologyKeywords), ("gaming", gamingKeywords),
   ("finance", financeKeywords), ("fitness", fitnessKeywords),
   ("entertainment", entertainmentKeywords), ("sports", sportsKeywords),
   ("politics", politicsKeywords), ("education", educationKeywords)]

/-- Category score (line 117): the sum over the category's keywords of the
keyword's frequency among the filtered tokens. -/
def catScore (toks : List String) (kws : List String) : Nat :=
  (kws.map (fun k => toks.count k)).sum

/-- The `interests` dict before sorting (lines 115-119): categories in
definition order, keeping exactly those with a positive score, paired with
that score. -/
def retainedInterests (stop : List String) (rawTokens : List String) :
    List (String × Nat) :=
  interest_categories.filterMap (fun ck =>
    if 0 < catScore (rawTokens.filter (keepToken stop)) ck.2 then
      some (ck.1, catScore (rawTokens.filter (keepToken stop)) ck.2)
    else none)

/-- `extract_topics_and_interests` restricted to its `interests` output
(line 123): the retained categories stably sorted by descending score.
`rawTokens` is the output of the external `word_tokenize` on the lower-cased
joined text. -/
def extract_topics_and_interests (stop : List String) (rawTokens : List String) :
    List (String × Nat) :=
  sortDescBy (fun p => (p.2 : Int)) (retainedInterests stop rawTokens)

/-! ### Posting patterns (`analyze_posting_patterns`, lines 126-136) -/

/-- Python's `round` ties-to-even rounding to an integer. -/
def roundHalfEven (q : ℚ) : ℤ :=
  if q - Int.floor q < 1 / 2 then Int.floor q
  else if 1 / 2 < q - Int.floor q then Int.floor q + 1
  else if Even (Int.floor q) then Int.floor q else Int.floor q + 1

/-- Python's `round(q, 2)`. -/
def round2 (q : ℚ) : ℚ := (roundHalfEven (q * 100) : ℚ) / 100

/-- The dictionary returned by `analyze_posting_patterns`. -/
structure Patterns where
  total_posts : Nat
  total_comments : Nat
  avg_post_score : ℚ
  avg_comment_score : ℚ
deriving DecidableEq

/-- `analyze_posting_patterns`: counts, and score averages guarded against
empty sequences (`sum/len if scores else 0`), rounded to 2 decimals. -/
def analyze_posting_patterns (u : UserData) : Patterns :=
  ⟨u.posts.length, u.comments.length,
   round2 (if u.posts.map Post.score = [] then 0
     else ((u.posts.map Post.score).sum : ℚ) / (u.posts.map Post.score).length),
   round2 (if u.comments.map Comment.score = [] then 0
     else ((u.comments.map Comment.score).sum : ℚ) / (u.comments.map Comment.score).length)⟩

/-! ### Personality insights (`generate_personality_insights`, lines 138-158) -/

/-- The mood label derived from the aggregate compound sentiment
(lines 140-145). -/
def moodLabel (compound : ℚ) : String :=
  if compound > 3 / 10 then "Generally positive and optimistic"
  else if compound < -(3 / 10) then "Tends to be critical or negative"
  else "Balanced emotional expression"

/-- The engagement-style label derived from the post and comment counts
(lines 147-152). -/
def engagementLabel (total_posts total_comments : Nat) : String :=
  if total_comments > total_posts * 3 then
    "Highly interactive, prefers commenting over posting"
  else if total_posts > total_comments then
    "Content creator, prefers sharing original posts"
  else "Balanced between posting and commenting"

/-- `generate_personality_insights`: the insights dict in insertion order;
the primary-interest entry exists only when some interest category was
retained (lines 154-156). -/
def generate_personality_insights (sentiment : Sentiment)
    (interests : List (String × Nat)) (pat : Patterns) : List (String × String) :=
  [("mood", moodLabel sentiment.compound),
   ("engagement_style", engagementLabel pat.total_posts pat.total_comments)]
    ++ match interests with
       | [] => []
       | (c, _) :: _ => [("primary_interest", "Primarily interested in " ++ c)]

/-! ### Sentiment aggregation as the code performs it (lines 183-184) -/

/-- The fragment sequence of the profile: `title + " " + text` for each post
in fetch order, then each comment's text in fetch order (lines 184-185). -/
def fragmentTexts (u : UserData) : List String :=
  u.posts.map (fun p => p.title ++ " " ++ p.text) ++ u.comments.map (fun c => c.text)

/-- `analyze_text_sentiment` (lines 97-98): delegates to the external
sentiment primitive. -/
def analyze_text_sentiment (score : String → Sentiment) (t : String) : Sentiment :=
  score t

/-- The aggregate sentiment computed on line 184: one invocation of the
sentiment primitive on the space-joined concatenation of all fragments. -/
def aggregateSentiment (score : String → Sentiment) (u : UserData) : Sentiment :=
  analyze_text_sentiment score (String.intercalate " " (fragmentTexts u))

/-! ### Subreddit activity counts (`save_persona_to_txt`, lines 215-221) -/

/-- One `defaultdict(int)` increment preserving first-insertion order. -/
def bumpCount (k : String) : List (String × Nat) → List (String × Nat)
  | [] => [(k, 1)]
  | (k', n) :: rest => if k' = k then (k', n + 1) :: rest else (k', n) :: bumpCount k rest

/-- The `sub_counts` mapping: subreddit names of all posts then all comments,
counted, keys in first-occurrence order (the iteration order of a Python
dict). -/
def subCounts (u : UserData) : List (String × Nat) :=
  (u.posts.map Post.subreddit ++ u.comments.map Comment.subreddit).foldl
    (fun acc k => bumpCount k acc) []

/-! ### The composed report (`save_persona_to_txt`, lines 183-237) -/

/-- The data rendered into the persona report, field by field in the order
the sections are written. -/
structure Report where
  username : String
  accountCreated : String
  karmaPost : Int
  karmaComment : Int
  totalPosts : Nat
  totalComments : Nat
  avgPostScore : ℚ
  avgCommentScore : ℚ
  sentiment : Sentiment
  topInterests : List (String × Nat)
  topSubreddits : List (String × Nat)
  insights : List (String × String)
  citations : List Citation
deriving DecidableEq

/-- Python's `str.lower()` applied character by character. -/
def lowerStr (s : String) : String := String.mk (s.toList.map Char.toLower)

/-- `save_persona_to_txt` as the report data it renders: sentiment from one
primitive call on the joined fragments (line 184), interests from the
tokenized lower-cased joined fragments (lines 101-102, 185), activity
patterns, insights, top-5 interests (line 211), top-5 subreddits
(lines 215-221) and citations. -/
def save_persona_to_txt (score : String → Sentiment) (tokenize : String → List String)
    (stop : List String) (u : UserData) : Report :=
  ⟨u.username, u.accountCreated, u.karmaPost, u.karmaComment,
   (analyze_posting_patterns u).total_posts,
   (analyze_posting_patterns u).total_comments,
   (analyze_posting_patterns u).avg_post_score,
   (analyze_posting_patterns u).avg_comment_score,
   aggregateSentiment score u,
   (extract_topics_and_interests stop
     (tokenize (lowerStr (String.intercalate " " (fragmentTexts u))))).take 5,
   (sortDescBy (fun p => (p.2 : Int)) (subCounts u)).take 5,
   generate_personality_insights (aggregateSentiment score u)
     (extract_topics_and_interests stop
       (tokenize (lowerStr (String.intercalate " " (fragmentTexts u)))))
     (analyze_posting_patterns u),
   generate_citations u⟩

/-! ### Spec-side definitions (for refinement claims) -/

/-- Whether a string is empty or whitespace-only. -/
def isBlankStr (s : String) : Bool := s.toList.all (fun c => c.isWhitespace)

/-- Modelled from the spec (section 4.2, claim C1): the sentiment-aggregation
procedure the specification describes — discard blank fragments, score each
retained fragment individually with the external primitive, take the
arithmetic mean of each field independently, and return all-zero fields when
no fragment remains. -/
def specSentimentAggregate (score : String → Sentiment) (frags : List String) :
    Sentiment :=
  if (frags.filter (fun f => !isBlankStr f)).isEmpty then ⟨0, 0, 0, 0⟩
  else
    ⟨((frags.filter (fun f => !isBlankStr f)).map (fun f => (score f).compound)).sum
        / (frags.filter (fun f => !isBlankStr f)).length,
     ((frags.filter (fun f => !isBlankStr f)).map (fun f => (score f).pos)).sum
        / (frags.filter (fun f => !isBlankStr f)).length,
     ((frags.filter (fun f => !isBlankStr f)).map (fun f => (score f).neg)).sum
        / (frags.filter (fun f => !isBlankStr f)).length,
     ((frags.filter (fun f => !isBlankStr f)).map (fun f => (score f).neu)).sum
        / (frags.filter (fun f => !isBlankStr f)).length⟩

/-- Spec-side definition (claim C6): the true arithmetic mean of the raw
integer scores, rounded to two decimals, and 0 for an empty sequence. -/
def trueMeanRounded2 (scores : List Int) : ℚ :=
  if scores.isEmpty then 0 else round2 ((scores.sum : ℚ) / scores.length)

/-! ### Concrete data used by counterexamples and witnesses -/

/-- A concrete sentiment primitive (bounded fields) that distinguishes one
call on joined text from averaged per-fragment calls. -/
def exScore : String → Sentiment :=
  fun t => if 3 < t.length then ⟨1, 0, 0, 0⟩ else ⟨0, 0, 0, 0⟩

/-- A concrete two-post profile on which the joined-text sentiment differs
from the per-fragment mean. -/
def exUser : UserData :=
  ⟨"u", "2020-01-01", 0, 0,
   [⟨"aa", "", "s", 1, "url1"⟩, ⟨"aa", "", "s", 1, "url2"⟩], []⟩

/-- The mock profile of `samples/test_analyzer.py` (`create_mock_user_data`):
3 posts with scores 45, 23, 67 and 5 comments with scores 15, 8, 3, 12, 6,
in fetch order. -/
def mock_user_data : UserData :=
  ⟨"test_user", "2020-01-01", 1500, 3200,
   [⟨"My first Python machine learning project",
     "Just finished building a sentiment analysis model using Python and scikit-learn. The experience was amazing and I learned so much about data preprocessing and model evaluation.",
     "MachineLearning", 45, "https://reddit.com/r/MachineLearning/comments/test1"⟩,
    ⟨"Best gaming setup for 2024",
     "After months of research, I finally built my dream gaming PC. RTX 4080, AMD Ryzen 9, 32GB RAM. The performance is incredible for both gaming and video editing.",
     "gaming", 23, "https://reddit.com/r/gaming/comments/test2"⟩,
    ⟨"Cryptocurrency investment strategies",
     "Been investing in crypto for 2 years now. Here are my thoughts on portfolio diversification and risk management in the volatile crypto market.",
     "CryptoCurrency", 67, "https://reddit.com/r/CryptoCurrency/comments/test3"⟩],
   [⟨"Great tutorial! I love how you explained the concept step by step. This really helped me understand neural networks better.",
     "MachineLearning", 15, "https://reddit.com/r/MachineLearning/comments/comment1"⟩,
    ⟨"This game is absolutely fantastic! The graphics are stunning and the gameplay mechanics are so smooth. Best purchase I made this year.",
     "gaming", 8, "https://reddit.com/r/gaming/comments/comment2"⟩,
    ⟨"I disagree with this approach. The risks are too high and the market is too unpredictable. Better to stick with traditional investments.",
     "investing", 3, "https://reddit.com/r/investing/comments/comment3"⟩,
    ⟨"Python is such a versatile language. I use it for everything from web development to data science. The community is amazing too.",
     "Python", 12, "https://reddit.com/r/Python/comments/comment4"⟩,
    ⟨"Thanks for sharing this! I had the same issue and your solution worked perfectly. The documentation could be clearer though.",
     "programming", 6, "https://reddit.com/r/programming/comments/comment5"⟩]⟩

/-- A small one-post one-comment profile used when instantiating
hypothesis-bearing theorems. -/
def smallUser : UserData :=
  ⟨"small", "2021-01-01", 0, 0,
   [⟨"hello", "world", "sub1", 2, "u1"⟩],
   [⟨"a comment", "sub2", 7, "u2"⟩]⟩

/-! ## Lemmas about the stable descending sort -/

theorem insertDescBy_perm {α : Type} (key : α → Int) (x : α) (l : List α) :
    List.Perm (insertDescBy key x l) (x :: l) := by
  induction l with
  | nil => exact List.Perm.refl _
  | cons y ys ih =>
    by_cases h : key y ≤ key x
    · simp [insertDescBy, h]
    · simp only [insertDescBy, if_neg h]
      exact (ih.cons y).trans (List.Perm.swap x y ys)

theorem sortDescBy_perm {α : Type} (key : α → Int) (l : List α) :
    List.Perm (sortDescBy key l) l := by
  induction l with
  | nil => exact List.Perm.refl _
  | cons x xs ih => exact (insertDescBy_perm key x _).trans (ih.cons x)

theorem pairwise_insertDescBy {α : Type} (key : α → Int) {x : α} {l : List α}
    (hl : l.Pairwise (fun a b => key b ≤ key a)) :
    (insertDescBy key x l).Pairwise (fun a b => key b ≤ key a) := by
  induction l with
  | nil => simp [insertDescBy]
  | cons y ys ih =>
    rcases List.pairwise_cons.mp hl with ⟨hy, hys⟩
    by_cases h : key y ≤ key x
    · simp only [insertDescBy, if_pos h]
      refine List.pairwise_cons.mpr ⟨?_, hl⟩
      intro z hz
      rcases List.mem_cons.mp hz with rfl | hz'
      · exact h
      · exact le_trans (hy z hz') h
    · simp only [insertDescBy, if_neg h]
      refine List.pairwise_cons.mpr ⟨?_, ih hys⟩
      intro z hz
      rcases List.mem_cons.mp ((insertDescBy_perm key x ys).mem_iff.mp hz) with rfl | hz'
      · exact le_of_not_le h
      · exact hy z hz'

theorem pairwise_sortDescBy {α : Type} (key : α → Int) (l : List α) :
    (sortDescBy key l).Pairwise (fun a b => key b ≤ key a) := by
  induction l with
  | nil => simp [sortDescBy]
  | cons x xs ih => exact pairwise_insertDescBy key ih

theorem filter_insertDescBy {α : Type} (key : α → Int) (s : Int) (x : α) (l : List α) :
    (insertDescBy key x l).filter (fun z => decide (key z = s))
      = if key x = s then x :: l.filter (fun z => decide (key z = s))
        else l.filter (fun z => decide (key z = s)) := by
  induction l with
  | nil => by_cases hx : key x = s <;> simp [insertDescBy, hx]
  | cons y ys ih =>
    by_cases h : key y ≤ key x
    · simp only [insertDescBy, if_pos h, List.filter_cons]
      by_cases hx : key x = s <;> simp [hx]
    · simp only [insertDescBy, if_neg h, List.filter_cons, ih]
      by_cases hx : key x = s <;> by_cases hy : key y = s
      · exact absurd (le_of_eq (hy.trans hx.symm)) h
      · simp [hx, hy]
      · simp [hx, hy]
      · simp [hx, hy]

theorem filter_sortDescBy {α : Type} (key : α → Int) (s : Int) (l : List α) :
    (sortDescBy key l).filter (fun z => decide (key z = s))
      = l.filter (fun z => decide (key z = s)) := by
  induction l with
  | nil => rfl
  | cons x xs ih =>
    rw [sortDescBy, filter_insertDescBy, ih, List.filter_cons]
    by_cases hx : key x = s <;> simp [hx]

/-! ## Small helper lemmas -/

theorem round2_zero : round2 0 = 0 := by
  norm_num [round2, roundHalfEven]

theorem catScore_nil (kws : List String) : catScore [] kws = 0 := by
  induction kws with
  | nil => rfl
  | cons k ks ih =>
    simp only [catScore, List.map_cons, List.sum_cons, List.count_nil] at ih ⊢
    omega

/-! ## Lemmas about the URL scanner -/

theorem takeNonSlash_no_slash (l : List Char) : ∀ c ∈ takeNonSlash l, c ≠ '/' := by
  induction l with
  | nil => intro c hc; cases hc
  | cons a as ih =>
    intro c hc
    by_cases h : a = '/'
    · rw [takeNonSlash, if_pos h] at hc
      cases hc
    · rw [takeNonSlash, if_neg h] at hc
      rcases List.mem_cons.mp hc with rfl | hc'
      · exact h
      · exact ih c hc'

theorem takeNonSlash_append (a b : List Char) (ha : ∀ c ∈ a, c ≠ '/') :
    takeNonSlash (a ++ b) = a ++ takeNonSlash b := by
  induction a with
  | nil => simp
  | cons x xs ih =>
    have hx : x ≠ '/' := ha x (List.mem_cons_self x xs)
    rw [show (x :: xs) ++ b = x :: (xs ++ b) from rfl, takeNonSlash, if_neg hx,
      ih (fun c hc => ha c (List.mem_cons_of_mem x hc))]
    rfl

theorem scanCapture_cons_neg (lit : List Char) (b : Bool) (c : Char) (cs : List Char)
    (h : lit.isPrefixOf (c :: cs) = false) :
    scanCapture lit b (c :: cs) = scanCapture lit b cs := by
  simp [scanCapture, h]

theorem isPrefixOf_self_append (l r : List Char) : l.isPrefixOf (l ++ r) = true := by
  induction l with
  | nil => cases r <;> rfl
  | cons a as ih => simp [List.isPrefixOf, ih]

theorem scanCapture_found (h0 : Char) (t rest : List Char)
    (hcap : takeNonSlash rest ≠ []) :
    scanCapture (h0 :: t) false ((h0 :: t) ++ rest) = some (takeNonSlash rest) := by
  have hpre : (h0 :: t).isPrefixOf ((h0 :: t) ++ rest) = true := isPrefixOf_self_append _ _
  have hdrop : List.drop (h0 :: t).length ((h0 :: t) ++ rest) = rest := List.drop_left _ _
  have hne : (takeNonSlash rest).isEmpty = false := by
    cases he : takeNonSlash rest with
    | nil => exact absurd he hcap
    | cons d ds => rfl
  rw [show (h0 :: t) ++ rest = h0 :: (t ++ rest) from rfl, scanCapture,
    show h0 :: (t ++ rest) = (h0 :: t) ++ rest from rfl]
  simp [hpre, hdrop, hne]

theorem scanCapture_skip (lit : List Char) (b : Bool) (xs ys : List Char)
    (hx : ∀ c ∈ xs, ∀ t : List Char, lit.isPrefixOf (c :: t) = false) :
    scanCapture lit b (xs ++ ys) = scanCapture lit b ys := by
  induction xs with
  | nil => rfl
  | cons x xs' ih =>
    rw [List.cons_append, scanCapture_cons_neg _ _ _ _ (hx x (List.mem_cons_self x xs') _)]
    exact ih (fun c hc t => hx c (List.mem_cons_of_mem x hc) t)

theorem count_le_of_isPrefixOf (c : Char) : ∀ l s : List Char,
    l.isPrefixOf s = true → l.count c ≤ s.count c := by
  intro l
  induction l with
  | nil => intro s _; simp
  | cons a as ih =>
    intro s hp
    cases s with
    | nil => cases hp
    | cons b bs =>
      rw [show ((a :: as).isPrefixOf (b :: bs)) = (a == b && as.isPrefixOf bs) from rfl,
        Bool.and_eq_true] at hp
      rcases hp with ⟨hab, hrest⟩
      have hab' : a = b := beq_iff_eq.mp hab
      subst hab'
      have := ih bs hrest
      by_cases hac : a = c <;> simp [List.count_cons, hac] <;> omega

theorem scanCapture_none_of_count (lit : List Char) (b : Bool) (s : List Char)
    (h : s.count '/' < lit.count '/') : scanCapture lit b s = none := by
  induction s with
  | nil => rfl
  | cons c cs ih =>
    cases hb : lit.isPrefixOf (c :: cs) with
    | true =>
      exact absurd (count_le_of_isPrefixOf '/' lit (c :: cs) hb) (by omega)
    | false =>
      rw [scanCapture_cons_neg _ _ _ _ hb]
      apply ih
      have hle : List.count '/' cs ≤ List.count '/' (c :: cs) := by
        by_cases hc : c = '/' <;> simp [List.count_cons, hc]
      omega

theorem scanCapture_none_of_not_occurs (lit : List Char) (b : Bool) (s : List Char)
    (h : ¬ OccursCap lit s) : scanCapture lit b s = none := by
  induction s with
  | nil => rfl
  | cons c cs ih =>
    have hshift : ¬ OccursCap lit cs := by
      rintro ⟨i, hir, hp', hc'⟩
      simp only [List.mem_range] at hir
      refine h ⟨i + 1, ?_, ?_, ?_⟩
      · simp only [List.mem_range, List.length_cons]
        omega
      · simpa [List.drop_succ_cons] using hp'
      · simpa [List.drop_succ_cons] using hc'
    cases hb : lit.isPrefixOf (c :: cs) with
    | false =>
      rw [scanCapture_cons_neg _ _ _ _ hb]
      exact ih hshift
    | true =>
      cases hcap : takeNonSlash (List.drop lit.length (c :: cs)) with
      | cons d ds =>
        exact absurd
          ⟨0, by simp [List.mem_range], by simpa using hb, by simp [hcap]⟩ h
      | nil =>
        rw [scanCapture]
        simp only [hb, hcap]
        simp
        exact ih hshift

theorem scanCapture_some (lit : List Char) (b : Bool) (s cap : List Char)
    (h : scanCapture lit b s = some cap) : cap ≠ [] ∧ ∀ c ∈ cap, c ≠ '/' := by
  induction s with
  | nil => cases h
  | cons c cs ih =>
    rw [scanCapture] at h
    by_cases hg : (lit.isPrefixOf (c :: cs)
        && !(takeNonSlash (List.drop lit.length (c :: cs))).isEmpty
        && (!b
            || startsWithSlash
                (List.drop (takeNonSlash (List.drop lit.length (c :: cs))).length
                  (List.drop lit.length (c :: cs))))) = true
    · rw [if_pos hg] at h
      have hcap := Option.some_injective _ h
      subst hcap
      refine ⟨?_, takeNonSlash_no_slash _⟩
      rw [Bool.and_eq_true, Bool.and_eq_true] at hg
      rcases hg with ⟨⟨_, hne⟩, _⟩
      intro hnil
      rw [hnil] at hne
      simp at hne
    · rw [if_neg hg] at h
      exact ih h

theorem toList_append (a b : String) : (a ++ b).toList = a.toList ++ b.toList := by
  cases a
  cases b
  rfl

theorem lit_user_no_match (c : Char) (hc : ('r' : Char) ≠ c) (t : List Char) :
    lit_user.isPrefixOf (c :: t) = false := by
  have hb : ('r' == c) = false := beq_eq_false_iff_ne.mpr hc
  simp [lit_user, List.isPrefixOf, hb]

theorem lit_u_no_match (c : Char) (hc : ('r' : Char) ≠ c) (t : List Char) :
    lit_u.isPrefixOf (c :: t) = false := by
  have hb : ('r' == c) = false := beq_eq_false_iff_ne.mpr hc
  simp [lit_u, List.isPrefixOf, hb]

theorem lit_user_no_match_on_u (t : List Char) :
    lit_user.isPrefixOf (lit_u ++ t) = false := by
  simp [lit_user, lit_u, List.isPrefixOf]

theorem scanCapture_some_of_occurs (lit s : List Char)
    (h : OccursCap lit s) : ∃ cap, scanCapture lit false s = some cap := by
  induction s with
  | nil =>
    rcases h with ⟨i, hir, _⟩
    simp [List.mem_range] at hir
  | cons c cs ih =>
    cases hb : lit.isPrefixOf (c :: cs) with
    | false =>
      rw [scanCapture_cons_neg _ _ _ _ hb]
      apply ih
      rcases h with ⟨i, hir, hp', hc'⟩
      cases i with
      | zero =>
        rw [List.drop_zero] at hp'
        rw [hb] at hp'
        cases hp'
      | succ j =>
        refine ⟨j, ?_, ?_, ?_⟩
        · simp only [List.mem_range, List.length_cons] at hir ⊢
          omega
        · simpa [List.drop_succ_cons] using hp'
        · simpa [List.drop_succ_cons] using hc'
    | true =>
      cases hcap : takeNonSlash (List.drop lit.length (c :: cs)) with
      | cons d ds =>
        refine ⟨d :: ds, ?_⟩
        rw [scanCapture]
        simp [hb, hcap]
      | nil =>
        rw [scanCapture]
        simp only [hb, hcap]
        simp
        apply ih
        rcases h with ⟨i, hir, hp', hc'⟩
        cases i with
        | zero =>
          rw [List.drop_zero] at hc'
          exact absurd hcap hc'
        | succ j =>
          refine ⟨j, ?_, ?_, ?_⟩
          · simp only [List.mem_range, List.length_cons] at hir ⊢
            omega
          · simpa [List.drop_succ_cons] using hp'
          · simpa [List.drop_succ_cons] using hc'

theorem extract_none_of_not_occurs (url : String)
    (h1 : ¬ OccursCap lit_user url.toList) (h2 : ¬ OccursCap lit_u url.toList) :
    extract_username_from_url url = none := by
  rw [extract_username_from_url,
    scanCapture_none_of_not_occurs _ _ _ h1, scanCapture_none_of_not_occurs _ _ _ h2,
    scanCapture_none_of_not_occurs _ _ _ h1, scanCapture_none_of_not_occurs _ _ _ h2]

theorem extract_some_of_occurs (url : String)
    (h : OccursCap lit_user url.toList ∨ OccursCap lit_u url.toList) :
    ∃ name, extract_username_from_url url = some name := by
  rcases h with h | h
  · rcases scanCapture_some_of_occurs lit_user url.toList h with ⟨cap, hcap⟩
    exact ⟨String.mk cap, by rw [extract_username_from_url, hcap]⟩
  · cases e1 : scanCapture lit_user false url.toList with
    | some cap =>
      exact ⟨String.mk cap, by rw [extract_username_from_url, e1]⟩
    | none =>
      rcases scanCapture_some_of_occurs lit_u url.toList h with ⟨cap, hcap⟩
      exact ⟨String.mk cap, by rw [extract_username_from_url, e1, hcap]⟩

theorem extract_eq_mk (url name : String)
    (h : extract_username_from_url url = some name) :
    ∃ (lit : List Char) (b : Bool) (cap : List Char),
      scanCapture lit b url.toList = some cap ∧ name = String.mk cap := by
  rw [extract_username_from_url] at h
  cases e1 : scanCapture lit_user false url.toList with
  | some cap =>
    rw [e1] at h
    exact ⟨_, _, cap, e1, (Option.some_injective _ h).symm⟩
  | none =>
    rw [e1] at h
    cases e2 : scanCapture lit_u false url.toList with
    | some cap =>
      rw [e2] at h
      exact ⟨_, _, cap, e2, (Option.some_injective _ h).symm⟩
    | none =>
      rw [e2] at h
      cases e3 : scanCapture lit_user true url.toList with
      | some cap =>
        rw [e3] at h
        exact ⟨_, _, cap, e3, (Option.some_injective _ h).symm⟩
      | none =>
        rw [e3] at h
        cases e4 : scanCapture lit_u true url.toList with
        | some cap =>
          rw [e4] at h
          exact ⟨_, _, cap, e4, (Option.some_injective _ h).symm⟩
        | none =>
          rw [e4] at h
          exact Option.noConfusion h

theorem extract_on_user_shape (pre : String)
    (hpre : ∀ c ∈ pre.toList, ('r' : Char) ≠ c)
    (name : String) (h1 : name.toList ≠ []) (h2 : ∀ c ∈ name.toList, c ≠ '/')
    (tr : String) (htr : tr = "" ∨ tr = "/") :
    extract_username_from_url (pre ++ "reddit.com/user/" ++ name ++ tr) = some name := by
  have hlit : ("reddit.com/user/" : String).toList = lit_user := by decide
  have htl : (pre ++ "reddit.com/user/" ++ name ++ tr).toList
      = pre.toList ++ (lit_user ++ (name.toList ++ tr.toList)) := by
    rw [toList_append, toList_append, toList_append, hlit]
    simp [List.append_assoc]
  have htr' : takeNonSlash tr.toList = [] := by
    rcases htr with rfl | rfl <;> rfl
  have hcap : takeNonSlash (name.toList ++ tr.toList) = name.toList := by
    rw [takeNonSlash_append _ _ h2, htr', List.append_nil]
  have hscan1 : scanCapture lit_user false
      (pre ++ "reddit.com/user/" ++ name ++ tr).toList = some name.toList := by
    rw [htl, scanCapture_skip lit_user false pre.toList _
      (fun c hc t => lit_user_no_match c (hpre c hc) t)]
    have hfound := scanCapture_found 'r' lit_user.tail (name.toList ++ tr.toList)
      (by rw [hcap]; exact h1)
    rw [hcap] at hfound
    exact hfound
  rw [extract_username_from_url, hscan1]
  cases name
  rfl

theorem extract_on_u_shape (pre : String)
    (hpre : ∀ c ∈ pre.toList, ('r' : Char) ≠ c)
    (name : String) (h1 : name.toList ≠ []) (h2 : ∀ c ∈ name.toList, c ≠ '/')
    (tr : String) (htr : tr = "" ∨ tr = "/") :
    extract_username_from_url (pre ++ "reddit.com/u/" ++ name ++ tr) = some name := by
  have hlit : ("reddit.com/u/" : String).toList = lit_u := by decide
  have htl : (pre ++ "reddit.com/u/" ++ name ++ tr).toList
      = pre.toList ++ (lit_u ++ (name.toList ++ tr.toList)) := by
    rw [toList_append, toList_append, toList_append, hlit]
    simp [List.append_assoc]
  have htr' : takeNonSlash tr.toList = [] := by
    rcases htr with rfl | rfl <;> rfl
  have hcap : takeNonSlash (name.toList ++ tr.toList) = name.toList := by
    rw [takeNonSlash_append _ _ h2, htr', List.append_nil]
  have hcount : List.count '/' (name.toList ++ tr.toList) < List.count '/' lit_user := by
    have hn : List.count '/' name.toList = 0 :=
      List.count_eq_zero.mpr (fun hmem => h2 '/' hmem rfl)
    have ht : List.count '/' tr.toList ≤ 1 := by
      rcases htr with rfl | rfl <;> simp
    have hl : List.count '/' lit_user = 2 := by decide
    rw [List.count_append, hn, hl]
    omega
  have hscan1 : scanCapture lit_user false
      (pre ++ "reddit.com/u/" ++ name ++ tr).toList = none := by
    rw [htl, scanCapture_skip lit_user false pre.toList _
      (fun c hc t => lit_user_no_match c (hpre c hc) t)]
    rw [show lit_u ++ (name.toList ++ tr.toList)
      = 'r' :: (lit_u.tail ++ (name.toList ++ tr.toList)) from rfl]
    rw [scanCapture_cons_neg lit_user false 'r' (lit_u.tail ++ (name.toList ++ tr.toList))
      (lit_user_no_match_on_u (name.toList ++ tr.toList))]
    rw [scanCapture_skip lit_user false lit_u.tail _
      (fun c hc t => lit_user_no_match c
        ((show ∀ c ∈ lit_u.tail, ('r' : Char) ≠ c by decide) c hc) t)]
    exact scanCapture_none_of_count lit_user false _ hcount
  have hscan2 : scanCapture lit_u false
      (pre ++ "reddit.com/u/" ++ name ++ tr).toList = some name.toList := by
    rw [htl, scanCapture_skip lit_u false pre.toList _
      (fun c hc t => lit_u_no_match c (hpre c hc) t)]
    have hfound := scanCapture_found 'r' lit_u.tail (name.toList ++ tr.toList)
      (by rw [hcap]; exact h1)
    rw [hcap] at hfound
    exact hfound
  rw [extract_username_from_url, hscan1, hscan2]
  cases name
  rfl

/-! ## Claim theorems -/

/-- C2 counterexample: `"reddit.com/u/bob"` lacks the `http(s)://` scheme,
so it is not of the accepted URL shapes, yet extraction succeeds with
`"bob"` instead of failing with `InvalidURL`: `re.search` matches the
patterns anywhere in the string. -/
theorem extraction_succeeds_without_scheme :
    ("reddit.com/u/bob" : String).toList.take 4 ≠ ("http" : String).toList ∧
    extract_username_from_url "reddit.com/u/bob" = some "bob" := by
  constructor
  · decide
  · decide

/-- C2 amended: for every URL of the shapes
`http(s)://[www.]reddit.com/{user|u}/<name>[/]` with `<name>` nonempty and
slash-free, extraction returns exactly `<name>` verbatim; but extraction is
an unanchored substring search, so it fails with `InvalidURL` exactly for
the strings in which neither `reddit.com/user/` nor `reddit.com/u/` occurs
followed by a non-slash character — every string containing such an
occurrence succeeds, whether of the accepted shapes or not (for example
without the scheme). -/
theorem url_extraction_amended (name : String) (h1 : name ≠ "")
    (h2 : ∀ c ∈ name.toList, c ≠ '/') :
    (∀ sch ∈ (["http://", "https://"] : List String),
     ∀ w ∈ (["", "www."] : List String),
     ∀ tr ∈ (["", "/"] : List String),
      extract_username_from_url (sch ++ w ++ "reddit.com/user/" ++ name ++ tr)
          = some name ∧
      extract_username_from_url (sch ++ w ++ "reddit.com/u/" ++ name ++ tr)
          = some name) ∧
    (∀ url : String,
      extract_username_from_url url = none ↔
        ¬ OccursCap lit_user url.toList ∧ ¬ OccursCap lit_u url.toList) := by
  have h1' : name.toList ≠ [] := by
    intro hcon
    apply h1
    cases name with
    | mk d =>
      simp only [String.toList] at hcon
      simp [hcon]
  have hiff : ∀ url : String,
      extract_username_from_url url = none ↔
        ¬ OccursCap lit_user url.toList ∧ ¬ OccursCap lit_u url.toList := by
    intro url
    constructor
    · intro hnone
      refine ⟨?_, ?_⟩ <;> intro hocc
      · rcases extract_some_of_occurs url (Or.inl hocc) with ⟨nm, hnm⟩
        rw [hnone] at hnm
        cases hnm
      · rcases extract_some_of_occurs url (Or.inr hocc) with ⟨nm, hnm⟩
        rw [hnone] at hnm
        cases hnm
    · intro hno
      exact extract_none_of_not_occurs url hno.1 hno.2
  refine ⟨?_, hiff⟩
  intro sch hsch w hw tr htr
  have hpre : ∀ c ∈ (sch ++ w).toList, ('r' : Char) ≠ c := by
    rw [toList_append]
    fin_cases hsch <;> fin_cases hw <;> decide
  have htr' : tr = "" ∨ tr = "/" := by
    fin_cases htr
    · exact Or.inl rfl
    · exact Or.inr rfl
  exact ⟨extract_on_user_shape (sch ++ w) hpre name h1' h2 tr htr',
    extract_on_u_shape (sch ++ w) hpre name h1' h2 tr htr'⟩

/-- Witness for C2's amended theorem: two accepted shapes with concrete
names, a concrete string containing neither pattern (which fails), and a
concrete non-shape string containing the `reddit.com/u/` pattern (which
does not fail). -/
theorem url_extraction_amended_witness :
    extract_username_from_url "https://www.reddit.com/user/kojied/" = some "kojied" ∧
    extract_username_from_url "http://reddit.com/u/final_user" = some "final_user" ∧
    extract_username_from_url "https://example.com/profile" = none ∧
    extract_username_from_url "reddit.com/u/bob" ≠ none := by
  refine ⟨?_, ?_, ?_, ?_⟩
  · have h := ((url_extraction_amended "kojied" (by decide) (by decide)).1
      "https://" (by simp) "www." (by simp) "/" (by simp)).1
    rw [show ("https://" ++ "www." ++ "reddit.com/user/" ++ "kojied" ++ "/" : String)
      = "https://www.reddit.com/user/kojied/" from rfl] at h
    exact h
  · have h := ((url_extraction_amended "final_user" (by decide) (by decide)).1
      "http://" (by simp) "" (by simp) "" (by simp)).2
    rw [show ("http://" ++ "" ++ "reddit.com/u/" ++ "final_user" ++ "" : String)
      = "http://reddit.com/u/final_user" from rfl] at h
    exact h
  · exact ((url_extraction_amended "x" (by decide) (by decide)).2
      "https://example.com/profile").mpr ⟨by decide, by decide⟩
  · intro hnone
    exact (((url_extraction_amended "x" (by decide) (by decide)).2
      "reddit.com/u/bob").mp hnone).2 (by decide)

/-- C10: whenever username extraction succeeds, the returned username is a
nonempty string containing no slash character, for every input URL. -/
theorem extracted_username_invariant (url name : String)
    (h : extract_username_from_url url = some name) :
    name ≠ "" ∧ ∀ c ∈ name.toList, c ≠ '/' := by
  rcases extract_eq_mk url name h with ⟨lit, b, cap, hscan, rfl⟩
  rcases scanCapture_some _ _ _ _ hscan with ⟨hne, hns⟩
  constructor
  · intro hcon
    apply hne
    have hdata : (String.mk cap).data = ("" : String).data := congrArg String.data hcon
    simpa using hdata
  · intro c hc
    exact hns c hc

/-- Witness for C10 at a concrete successful extraction. -/
theorem extracted_username_invariant_witness :
    ("bob" : String) ≠ "" ∧ ∀ c ∈ ("bob" : String).toList, c ≠ '/' :=
  extracted_username_invariant "https://reddit.com/user/bob" "bob" (by decide)

/-- C3: for every profile, citation selection returns exactly
`min 5 total_items` entries, sorted by descending score; ties are broken
stably by original order (for every score value, the equal-score entries of
the stably sorted content list coincide, in order, with those of the content
list in fetch order: all posts, then all comments); and every returned
entry's text has length at most 200 characters. -/
theorem citation_selection_correct (u : UserData) :
    (generate_citations u).length = min 5 (u.posts.length + u.comments.length) ∧
    (generate_citations u).Pairwise (fun a b => b.score ≤ a.score) ∧
    (∀ s : Int,
      (sortDescBy (fun x => x.score) (toContent u)).filter
          (fun x => decide (x.score = s))
        = (toContent u).filter (fun x => decide (x.score = s))) ∧
    (∀ c ∈ generate_citations u, c.text.length ≤ 200) := by
  refine ⟨?_, ?_, fun s => filter_sortDescBy _ s _, ?_⟩
  · rw [generate_citations, List.length_map, List.length_take,
      (sortDescBy_perm (fun x : Citation => x.score) (toContent u)).length_eq]
    simp [toContent]
  · have hs := pairwise_sortDescBy (fun x : Citation => x.score) (toContent u)
    have ht := List.Pairwise.sublist (List.take_sublist 5 _) hs
    rw [generate_citations, List.pairwise_map]
    exact List.Pairwise.imp (fun h => h) ht
  · intro c hc
    simp only [generate_citations, List.mem_map] at hc
    rcases hc with ⟨t, _, rfl⟩
    have hlen : ∀ l : List Char, (String.mk l).length = l.length := fun l => rfl
    simp only [truncate200, hlen, List.length_take]
    omega

/-- Witness for C3: the concrete consequences at a one-post one-comment
profile and at a concrete returned citation. -/
theorem citation_selection_correct_witness :
    (generate_citations smallUser).length = min 5 (1 + 1) ∧
    (⟨"comment", "a comment", 7, "u2", "sub2"⟩ : Citation).text.length ≤ 200 :=
  ⟨(citation_selection_correct smallUser).1,
   (citation_selection_correct smallUser).2.2.2 _ (by decide)⟩

/-- C4: interest classification never returns a zero-score category, every
retained category's score is the sum of the filtered-token frequencies of
its keywords, the result is sorted by descending score with ties stably in
category-definition order (per-score filters agree with the retained list,
which is in definition order), and the report prints at most the top 5. -/
theorem interest_classification_correct (stop rawTokens : List String) :
    (∀ p ∈ extract_topics_and_interests stop rawTokens, p.2 ≠ 0) ∧
    (∀ p ∈ extract_topics_and_interests stop rawTokens,
      ∃ kws, (p.1, kws) ∈ interest_categories ∧
        p.2 = catScore (rawTokens.filter (keepToken stop)) kws) ∧
    (extract_topics_and_interests stop rawTokens).Pairwise (fun a b => b.2 ≤ a.2) ∧
    (∀ s : Int,
      (extract_topics_and_interests stop rawTokens).filter
          (fun p => decide ((p.2 : Int) = s))
        = (retainedInterests stop rawTokens).filter
            (fun p => decide ((p.2 : Int) = s))) ∧
    (∀ (score : String → Sentiment) (tokenize : String → List String) (u : UserData),
      (save_persona_to_txt score tokenize stop u).topInterests
        = (extract_topics_and_interests stop
            (tokenize (lowerStr (String.intercalate " " (fragmentTexts u))))).take 5 ∧
      (save_persona_to_txt score tokenize stop u).topInterests.length ≤ 5) := by
  have hmem : ∀ p ∈ extract_topics_and_interests stop rawTokens,
      ∃ ck ∈ interest_categories,
        0 < catScore (rawTokens.filter (keepToken stop)) ck.2 ∧
        p = (ck.1, catScore (rawTokens.filter (keepToken stop)) ck.2) := by
    intro p hp
    rw [extract_topics_and_interests] at hp
    have hp' : p ∈ retainedInterests stop rawTokens :=
      (sortDescBy_perm (fun q : String × Nat => (q.2 : Int)) _).mem_iff.mp hp
    rcases List.mem_filterMap.mp hp' with ⟨ck, hck, hsome⟩
    by_cases hpos : 0 < catScore (rawTokens.filter (keepToken stop)) ck.2
    · rw [if_pos hpos] at hsome
      exact ⟨ck, hck, hpos, (Option.some_injective _ hsome).symm⟩
    · rw [if_neg hpos] at hsome
      exact absurd hsome (by simp)
  refine ⟨?_, ?_, ?_, ?_, ?_⟩
  · intro p hp
    rcases hmem p hp with ⟨ck, _, hpos, rfl⟩
    exact hpos.ne'
  · intro p hp
    rcases hmem p hp with ⟨ck, hck, hpos, rfl⟩
    exact ⟨ck.2, by rw [Prod.mk.eta]; exact hck, rfl⟩
  · have hpw := pairwise_sortDescBy (fun p : String × Nat => (p.2 : Int))
      (retainedInterests stop rawTokens)
    rw [extract_topics_and_interests]
    exact hpw.imp (fun h => by exact_mod_cast h)
  · intro s
    rw [extract_topics_and_interests]
    exact filter_sortDescBy _ s _
  · intro score tokenize u
    refine ⟨rfl, ?_⟩
    simp only [save_persona_to_txt, List.length_take]
    omega

/-- Witness for C4: the consequences at the concrete token list
`["game"]` with an empty stop-word set, at the retained entry
`("gaming", 1)`. -/
theorem interest_classification_correct_witness :
    ((("gaming" : String), (1 : Nat)).2 ≠ 0) ∧
    (∃ kws, (("gaming" : String), kws) ∈ interest_categories ∧
      (1 : Nat) = catScore ((["game"] : List String).filter (keepToken [])) kws) :=
  ⟨(interest_classification_correct [] ["game"]).1 ("gaming", 1) (by decide),
   (interest_classification_correct [] ["game"]).2.1 ("gaming", 1) (by decide)⟩

/-- C5: engagement and mood classification are pure total functions; the
engagement label follows the first matching rule of, in order,
`comments > 3 * posts`, then `posts > comments`, then the balanced default
(including the `(0, 0)` case), and the mood label is positive above `0.3`,
negative below `-0.3`, and balanced otherwise. -/
theorem engagement_and_mood_total (p c : Nat) (x : ℚ) :
    (c > 3 * p →
      engagementLabel p c = "Highly interactive, prefers commenting over posting") ∧
    (c ≤ 3 * p → p > c →
      engagementLabel p c = "Content creator, prefers sharing original posts") ∧
    (c ≤ 3 * p → p ≤ c →
      engagementLabel p c = "Balanced between posting and commenting") ∧
    engagementLabel 0 0 = "Balanced between posting and commenting" ∧
    (x > 3 / 10 → moodLabel x = "Generally positive and optimistic") ∧
    (x < -(3 / 10) → moodLabel x = "Tends to be critical or negative") ∧
    (-(3 / 10) ≤ x → x ≤ 3 / 10 → moodLabel x = "Balanced emotional expression") := by
  refine ⟨?_, ?_, ?_, rfl, ?_, ?_, ?_⟩
  · intro h
    rw [engagementLabel, if_pos (by omega)]
  · intro h1 h2
    rw [engagementLabel, if_neg (by omega), if_pos h2]
  · intro h1 h2
    rw [engagementLabel, if_neg (by omega), if_neg (by omega)]
  · intro h
    rw [moodLabel, if_pos h]
  · intro h
    rw [moodLabel, if_neg (by linarith), if_pos h]
  · intro h1 h2
    rw [moodLabel, if_neg (by linarith), if_neg (by linarith)]

/-- Witness for C5: each rule fired at a concrete pair of counts and a
concrete compound value. -/
theorem engagement_and_mood_total_witness :
    engagementLabel 1 4 = "Highly interactive, prefers commenting over posting" ∧
    engagementLabel 2 1 = "Content creator, prefers sharing original posts" ∧
    engagementLabel 2 5 = "Balanced between posting and commenting" ∧
    moodLabel (2 / 5) = "Generally positive and optimistic" ∧
    moodLabel (-(2 / 5)) = "Tends to be critical or negative" ∧
    moodLabel 0 = "Balanced emotional expression" :=
  ⟨(engagement_and_mood_total 1 4 0).1 (by norm_num),
   (engagement_and_mood_total 2 1 0).2.1 (by norm_num) (by norm_num),
   (engagement_and_mood_total 2 5 0).2.2.1 (by norm_num) (by norm_num),
   (engagement_and_mood_total 0 0 (2 / 5)).2.2.2.2.1 (by norm_num),
   (engagement_and_mood_total 0 0 (-(2 / 5))).2.2.2.2.2.1 (by norm_num),
   (engagement_and_mood_total 0 0 0).2.2.2.2.2.2 (by norm_num) (by norm_num)⟩

/-- C6: the report's average post and comment score fields are the true
arithmetic means of the raw integer `score` fields (not sentiment
fractions), rounded to two decimals, and equal 0 for empty sequences. -/
theorem average_scores_true_means (u : UserData) (score : String → Sentiment)
    (tokenize : String → List String) (stop : List String) :
    (analyze_posting_patterns u).avg_post_score
      = trueMeanRounded2 (u.posts.map Post.score) ∧
    (analyze_posting_patterns u).avg_comment_score
      = trueMeanRounded2 (u.comments.map Comment.score) ∧
    (u.posts = [] → (analyze_posting_patterns u).avg_post_score = 0) ∧
    (u.comments = [] → (analyze_posting_patterns u).avg_comment_score = 0) ∧
    (save_persona_to_txt score tokenize stop u).avgPostScore
      = trueMeanRounded2 (u.posts.map Post.score) ∧
    (save_persona_to_txt score tokenize stop u).avgCommentScore
      = trueMeanRounded2 (u.comments.map Comment.score) := by
  have key : ∀ l : List Int,
      round2 (if l = [] then 0 else (l.sum : ℚ) / l.length) = trueMeanRounded2 l := by
    intro l
    cases l with
    | nil => simp [trueMeanRounded2, round2_zero]
    | cons a as => simp [trueMeanRounded2]
  refine ⟨key _, key _, ?_, ?_, key _, key _⟩
  · intro he
    simp [analyze_posting_patterns, he, round2_zero]
  · intro he
    simp [analyze_posting_patterns, he, round2_zero]

/-- Witness for C6: the empty-sequence consequences at an empty profile. -/
theorem average_scores_true_means_witness :
    (analyze_posting_patterns ⟨"x", "d", 0, 0, [], []⟩).avg_post_score = 0 ∧
    (analyze_posting_patterns ⟨"x", "d", 0, 0, [], []⟩).avg_comment_score = 0 :=
  ⟨(average_scores_true_means ⟨"x", "d", 0, 0, [], []⟩
      (fun _ => ⟨0, 0, 0, 0⟩) (fun _ => []) []).2.2.1 rfl,
   (average_scores_true_means ⟨"x", "d", 0, 0, [], []⟩
      (fun _ => ⟨0, 0, 0, 0⟩) (fun _ => []) []).2.2.2.1 rfl⟩

/-- C8: on the mock profile of `samples/test_analyzer.py` (posts scored
45, 23, 67 and comments scored 15, 8, 3, 12, 6 in fetch order), citation
selection returns exactly 5 items with scores 67, 45, 23, 15, 12 in order. -/
theorem mock_citation_scores :
    (generate_citations mock_user_data).map (fun c => c.score)
        = [67, 45, 23, 15, 12] ∧
    (generate_citations mock_user_data).length = 5 := by
  constructor <;> rfl

/-- C7: for a profile with zero posts and zero comments, the composer still
produces the complete report: counts 0, average scores 0 with no division
error, all-zero sentiment fields (rendered 0.000), empty interest,
subreddit and citation sections, and the default balanced insights.  The
external sentiment primitive and tokenizer are assumed to map the empty
string to the all-zero record and the empty token list, as VADER and
`word_tokenize` do. -/
theorem empty_profile_report (score : String → Sentiment)
    (tokenize : String → List String) (stop : List String) (u : UserData)
    (hp : u.posts = []) (hc : u.comments = [])
    (hscore : score "" = ⟨0, 0, 0, 0⟩) (htok : tokenize "" = []) :
    save_persona_to_txt score tokenize stop u =
      ⟨u.username, u.accountCreated, u.karmaPost, u.karmaComment,
       0, 0, 0, 0, ⟨0, 0, 0, 0⟩, [], [],
       [("mood", "Balanced emotional expression"),
        ("engagement_style", "Balanced between posting and commenting")], []⟩ := by
  obtain ⟨un, ac, kp, kc, ps, cs⟩ := u
  simp only at hp hc
  subst hp hc
  simp [save_persona_to_txt, fragmentTexts, aggregateSentiment,
    analyze_text_sentiment, analyze_posting_patterns, generate_citations,
    toContent, subCounts, generate_personality_insights, sortDescBy,
    extract_topics_and_interests, retainedInterests, catScore_nil, lowerStr,
    hscore, htok, round2_zero, moodLabel, engagementLabel,
    String.intercalate]
  norm_num

/-- Witness for C7: the report of a concrete empty profile under the
constant-zero sentiment primitive and the empty tokenizer. -/
theorem empty_profile_report_witness :
    save_persona_to_txt (fun _ => ⟨0, 0, 0, 0⟩) (fun _ => []) []
        ⟨"x", "d", 0, 0, [], []⟩
      = ⟨"x", "d", 0, 0, 0, 0, 0, 0, ⟨0, 0, 0, 0⟩, [], [],
         [("mood", "Balanced emotional expression"),
          ("engagement_style", "Balanced between posting and commenting")], []⟩ :=
  empty_profile_report _ _ _ _ rfl rfl rfl rfl

/-- C1 counterexample: for a concrete bounded sentiment primitive and a
concrete two-post profile, the aggregate sentiment the code computes (one
primitive call on the space-joined fragments) differs from the
discard-blank, score-each-fragment, average-per-field procedure the claim
describes. -/
theorem sentiment_not_per_fragment_mean :
    aggregateSentiment exScore exUser
      ≠ specSentimentAggregate exScore (fragmentTexts exUser) := by
  have hcode : aggregateSentiment exScore exUser = ⟨1, 0, 0, 0⟩ := rfl
  have hspec : specSentimentAggregate exScore (fragmentTexts exUser)
      = ⟨0, 0, 0, 0⟩ := by
    rw [specSentimentAggregate]
    rw [show (fragmentTexts exUser).filter (fun f => !isBlankStr f)
      = ["aa ", "aa "] from rfl]
    have h1 : (exScore "aa ").compound = 0 := rfl
    have h2 : (exScore "aa ").pos = 0 := rfl
    have h3 : (exScore "aa ").neg = 0 := rfl
    have h4 : (exScore "aa ").neu = 0 := rfl
    simp [h1, h2, h3, h4]
  rw [hcode, hspec]
  intro hcon
  exact absurd (congrArg Sentiment.compound hcon) (by norm_num)

/-- C1 amended: the aggregate sentiment is a single invocation of the
sentiment primitive on the space-joined concatenation of all fragments
(blank fragments included, no per-fragment scoring and no averaging); with
zero fragments the primitive is invoked on the empty string, so every
aggregate field is 0 exactly when the primitive maps the empty string to
the all-zero record (as VADER does); the spec-side mean procedure itself
does return all zeros on an empty fragment sequence. -/
theorem aggregate_sentiment_single_call (score : String → Sentiment) (u : UserData) :
    aggregateSentiment score u = score (String.intercalate " " (fragmentTexts u)) ∧
    (fragmentTexts u = [] → aggregateSentiment score u = score "") ∧
    specSentimentAggregate score [] = ⟨0, 0, 0, 0⟩ ∧
    (score "" = ⟨0, 0, 0, 0⟩ → fragmentTexts u = [] →
      aggregateSentiment score u = ⟨0, 0, 0, 0⟩) := by
  refine ⟨rfl, ?_, rfl, ?_⟩
  · intro h
    simp [aggregateSentiment, analyze_text_sentiment, h, String.intercalate]
  · intro hs h
    simp [aggregateSentiment, analyze_text_sentiment, h, hs, String.intercalate]

/-- Witness for C1's amended theorem: the empty-fragment consequence at a
concrete empty profile under the constant-zero primitive. -/
theorem aggregate_sentiment_single_call_witness :
    aggregateSentiment (fun _ => (⟨0, 0, 0, 0⟩ : Sentiment)) ⟨"x", "d", 0, 0, [], []⟩
      = ⟨0, 0, 0, 0⟩ :=
  (aggregate_sentiment_single_call (fun _ => ⟨0, 0, 0, 0⟩)
    ⟨"x", "d", 0, 0, [], []⟩).2.2.2 rfl rfl

/-- C9: the token "game" (and likewise "player") is a keyword of both the
gaming and the sports categories and contributes its full frequency to each
of their scores, so category scores can double-count token occurrences and
are not a partition: on three "game" tokens both categories score 3, and
3 + 3 exceeds the number of filtered tokens. -/
theorem keyword_double_counting :
    ("game" ∈ gamingKeywords ∧ "game" ∈ sportsKeywords ∧
     "player" ∈ gamingKeywords ∧ "player" ∈ sportsKeywords) ∧
    (∀ toks : List String,
      catScore toks gamingKeywords
        = toks.count "game"
          + catScore toks ["gaming", "play", "player", "steam", "console", "xbox",
              "playstation", "nintendo", "fps", "rpg"] ∧
      catScore toks sportsKeywords
        = toks.count "game"
          + catScore toks ["football", "basketball", "soccer", "baseball", "sport",
              "team", "match", "player", "season"]) ∧
    (extract_topics_and_interests [] ["game", "game", "game"]
        = [("gaming", 3), ("sports", 3)]) ∧
    ((["game", "game", "game"] : List String).filter (keepToken [])).length < 3 + 3 := by
  refine ⟨by decide, ?_, by decide, by decide⟩
  intro toks
  refine ⟨?_, ?_⟩ <;> (simp [catScore, gamingKeywords, sportsKeywords]; try omega)

end RedditPersona
